import Mathlib

/-!
Verification of the memory-system core against its specification.

Each Python module under scrutiny is shallow-embedded here: pure functions
become Lean functions over `ℚ` (Python `float` arithmetic modelled as exact
rationals), stateful code becomes explicit state passing, SQLite tables
become association lists, and fallible code returns `Except`/`Option`.
-/

set_option maxRecDepth 4000

set_option allowUnsafeReducibility true

attribute [semireducible] Rat.add Rat.mul Rat.sub Rat.div Rat.inv Rat.neg

/-- Python `min` on two rationals. -/
def pyMin (a b : ℚ) : ℚ := if a ≤ b then a else b

/-- Python `max` on two rationals. -/
def pyMax (a b : ℚ) : ℚ := if b ≤ a then a else b

/-! ## Python string helpers shared by several modules -/

namespace PyStr

/-- Whether a character is ASCII whitespace, as used by Python `str.split()`. -/
def isWs (c : Char) : Bool :=
  c = ' ' || c = '\n' || c = '\t' || c = '\r' || c = '\x0b' || c = '\x0c'

/-- Helper for `pySplit`: walk the characters keeping the (reversed) current
word in `acc`; whitespace runs produce no empty words. -/
def splitWsAux : List Char → List Char → List (List Char)
  | [], acc => if acc.isEmpty then [] else [acc.reverse]
  | c :: cs, acc =>
    if isWs c then
      if acc.isEmpty then splitWsAux cs [] else acc.reverse :: splitWsAux cs []
    else splitWsAux cs (c :: acc)

/-- Python `str.split()` with no arguments: split on whitespace runs,
dropping empty pieces. -/
def pySplit (s : String) : List String :=
  (splitWsAux s.data []).map String.mk

/-- Python `str.lower()` (ASCII content). -/
def pyLower (s : String) : String :=
  String.mk (s.data.map Char.toLower)

/-- Join a list of strings with a separator (Python `sep.join(ws)`). -/
def joinWith (sep : String) : List String → String
  | [] => ""
  | [w] => w
  | w :: ws => w ++ sep ++ joinWith sep ws

/-- Strict lexicographic order on char lists: the order Python uses to
compare strings with `<`, `>=`, etc. (code-point comparison). -/
def lexLt : List Char → List Char → Bool
  | [], [] => false
  | [], _ :: _ => true
  | _ :: _, [] => false
  | c :: cs, d :: ds => c < d || (c = d && lexLt cs ds)

/-- Python `a >= b` on strings: not strictly less. -/
def pyGe (a b : String) : Bool := !(lexLt a.data b.data)

/-- Whether `pre` starts the list `l` (helper for substring search). -/
def startsWithL : List Char → List Char → Bool
  | _, [] => true
  | [], _ :: _ => false
  | c :: cs, d :: ds => c = d && startsWithL cs ds

/-- Python `needle in haystack` substring containment on char lists. -/
def hasSubstrL : List Char → List Char → Bool
  | [], needle => needle.isEmpty
  | c :: cs, needle => startsWithL (c :: cs) needle || hasSubstrL cs needle

/-- Python `needle in haystack` substring containment on strings. -/
def hasSubstr (haystack needle : String) : Bool :=
  hasSubstrL haystack.toList needle.toList

/-- Python `str.isupper()`: at least one cased (here: alphabetic) character
and every cased character uppercase. -/
def pyIsUpper (w : String) : Bool :=
  w.toList.any (fun c => c.isAlpha) && w.toList.all (fun c => !c.isAlpha || c.isUpper)

/-- Count occurrences of a character in a string (Python `str.count` for a
single-character needle). -/
def countChar (s : String) (c : Char) : Nat :=
  (s.toList.filter (fun d => d = c)).length

end PyStr

/-! ## src/src/importance_engine.py -/

namespace ImportanceEngine

open PyStr

/-- `IMPORTANCE_SIGNALS` keyword→weight table, in source order. -/
def IMPORTANCE_SIGNALS : List (String × ℚ) :=
  [("critical", 3/10), ("urgent", 1/4), ("breaking", 1/4), ("production", 1/5),
   ("pattern", 3/20), ("across", 1/10), ("clients", 1/10), ("mistake", 3/20),
   ("failed", 3/20), ("success", 1/10)]

/-- `calculate_importance(content)`: base importance from content signals.
Faithful port of src/src/importance_engine.py lines 43–89; note the source's
`if word_count > 50: ... elif word_count > 100: ...` ordering, under which
the `elif` branch is unreachable. -/
def calculate_importance (content : String) : ℚ :=
  if content = "" then 3/10
  else
    let contentLower := pyLower content
    let score : ℚ := 1/2
    let score := IMPORTANCE_SIGNALS.foldl
      (fun sc kw => if hasSubstr contentLower kw.1 then sc + kw.2 else sc) score
    let wordCount := (pySplit content).length
    let score :=
      if wordCount > 50 then score + 1/10
      else if wordCount > 100 then score + 2/10
      else score
    let score := if hasSubstr content "!" then score + 1/20 else score
    let capsWords :=
      ((pySplit content).filter (fun w => pyIsUpper w && w.length > 2)).length
    let score :=
      if capsWords > 0 then score + pyMin (1/10) ((capsWords : ℚ) * (1/20)) else score
    let sentenceCount := countChar content '.' + countChar content '!' + countChar content '?'
    let score := if sentenceCount > 2 then score + 1/20 else score
    pyMin 1 (pyMax (3/10) score)

/-- `apply_decay(importance, days_since)`: `importance * 0.99 ^ days`,
negative day counts treated as 0, floored at 0. -/
def apply_decay (importance : ℚ) (days_since : Int) : ℚ :=
  let d : Int := if days_since < 0 then 0 else days_since
  pyMax 0 (importance * (99/100 : ℚ) ^ d.toNat)

/-- `apply_reinforcement(importance)`: +15 % capped at 0.95. -/
def apply_reinforcement (importance : ℚ) : ℚ :=
  pyMin (19/20) (importance * (23/20))

/-- A 101-word content string with no signal keywords, no emphasis
characters and no sentence terminators. -/
def words101 : String := PyStr.joinWith " " (List.replicate 101 "go")

end ImportanceEngine

deriving instance DecidableEq for Except

/-! ## src/src/intelligence/relationship_mapper.py

The `memory_relationships` SQLite table is modelled as a list of `Edge`
rows.  Because the bug at issue in `get_related_memories` is a malformed
SQL string, the embedding keeps the query *text*: the WHERE clause is built
exactly as the source builds it, then parsed by a small grammar of SQLite
boolean expressions (`atom := column = ?`, `AND`, `OR`); a clause the
grammar rejects is a SQLite syntax error, i.e. `sqlite3.OperationalError`.
-/

namespace RelationshipMapper

/-- A row of the `memory_relationships` table. -/
structure Edge where
  id : String
  from_memory_id : String
  to_memory_id : String
  relationship_type : String
  strength : ℚ
  evidence : String
  created_at : Int
deriving DecidableEq, Repr

/-- The `valid_types` set checked by `link_memories`. -/
def valid_types : List String :=
  ["causal", "contradicts", "supports", "requires", "related"]

/-- Edge id: the source hashes `f"{from_id}{to_id}{relationship_type}"` with
`md5(...)[:16]`; the digest is modelled by its (deterministic) pre-image, which
is all the claims use: equal triples give equal ids. -/
def relId (from_id to_id relationship_type : String) : String :=
  from_id ++ to_id ++ relationship_type

/-- `link_memories(from_id, to_id, relationship_type, evidence, strength)`:
validate, then `INSERT OR IGNORE` keyed on the `id` primary key and the
`UNIQUE(from_memory_id, to_memory_id, relationship_type)` constraint.
`now` stands for `int(datetime.now().timestamp())`. -/
def link_memories (tbl : List Edge) (from_id to_id relationship_type evidence : String)
    (strength : ℚ) (now : Int) : Except String (String × List Edge) :=
  if relationship_type ∉ valid_types then
    Except.error "ValueError: invalid relationship_type"
  else if ¬ (0 ≤ strength ∧ strength ≤ 1) then
    Except.error "ValueError: strength must be 0.0-1.0"
  else
    let rid := relId from_id to_id relationship_type
    let conflict := tbl.any (fun e =>
      e.id = rid ∨
        (e.from_memory_id = from_id ∧ e.to_memory_id = to_id ∧
          e.relationship_type = relationship_type))
    let tbl' :=
      if conflict then tbl
      else tbl ++ [⟨rid, from_id, to_id, relationship_type, strength, evidence, now⟩]
    Except.ok (rid, tbl')

/-- The WHERE clause and positional parameters built by
`get_related_memories` (source lines 169–188), verbatim: conditions are
collected, the second one prefixed with `"OR "` when one is already present,
and then joined with `" OR "`. -/
def whereClause (memory_id : String) (relationship_type : Option String)
    (direction : String) : String × List String :=
  let conditions : List String := []
  let params : List String := []
  let (conditions, params) :=
    if direction = "from" ∨ direction = "both" then
      (conditions ++ ["from_memory_id = ?"], params ++ [memory_id])
    else (conditions, params)
  let (conditions, params) :=
    if direction = "to" ∨ direction = "both" then
      (if conditions.isEmpty then
        (conditions ++ ["to_memory_id = ?"], params ++ [memory_id])
      else
        (conditions ++ ["OR to_memory_id = ?"], params ++ [memory_id]))
    else (conditions, params)
  let wc := PyStr.joinWith " OR " conditions
  match relationship_type with
  | some t =>
    if t ≠ "" then (wc ++ " AND relationship_type = ?", params ++ [t])
    else (wc, params)
  | none => (wc, params)

/-- Syntax tree of a parsed SQLite WHERE clause over `column = ?` atoms. -/
inductive Cond where
  | atom (column : String) : Cond
  | and (a b : Cond) : Cond
  | or (a b : Cond) : Cond
deriving Repr, DecidableEq

/-- Tokenize a WHERE clause on spaces. -/
def tokenize (s : String) : List String :=
  PyStr.pySplit s

/-- Parse one `column = ?` atom. -/
def parseAtom : List String → Option (Cond × List String)
  | column :: "=" :: "?" :: rest =>
    if column ≠ "AND" ∧ column ≠ "OR" ∧ column ≠ "=" ∧ column ≠ "?" then
      some (Cond.atom column, rest)
    else none
  | _ => none

/-- Parse a conjunction `atom (AND atom)*` (fuelled recursion). -/
def parseAnd : Nat → List String → Option (Cond × List String)
  | 0, _ => none
  | fuel + 1, toks =>
    match parseAtom toks with
    | none => none
    | some (c, rest) =>
      match rest with
      | "AND" :: rest2 =>
        match parseAnd fuel rest2 with
        | none => none
        | some (c2, rest3) => some (Cond.and c c2, rest3)
      | _ => some (c, rest)

/-- Parse a disjunction `conj (OR conj)*` (fuelled recursion). -/
def parseOr : Nat → List String → Option (Cond × List String)
  | 0, _ => none
  | fuel + 1, toks =>
    match parseAnd (fuel + 1) toks with
    | none => none
    | some (c, rest) =>
      match rest with
      | "OR" :: rest2 =>
        match parseOr fuel rest2 with
        | none => none
        | some (c2, rest3) => some (Cond.or c c2, rest3)
      | _ => some (c, rest)

/-- Parse a complete WHERE clause; `none` is a SQLite syntax error. -/
def parseWhere (s : String) : Option Cond :=
  let toks := tokenize s
  match parseOr (toks.length + 1) toks with
  | some (c, []) => some c
  | _ => none

/-- The value of a column in an `Edge` row. -/
def colValue (e : Edge) (column : String) : String :=
  if column = "from_memory_id" then e.from_memory_id
  else if column = "to_memory_id" then e.to_memory_id
  else if column = "relationship_type" then e.relationship_type
  else ""

/-- Evaluate a parsed condition against a row, consuming the positional `?`
parameters left to right. -/
def evalCond : Cond → List String → Edge → Bool × List String
  | Cond.atom column, params, e =>
    match params with
    | [] => (false, [])
    | p :: rest => (colValue e column = p, rest)
  | Cond.and a b, params, e =>
    let (ra, rest) := evalCond a params e
    let (rb, rest') := evalCond b rest e
    (ra && rb, rest')
  | Cond.or a b, params, e =>
    let (ra, rest) := evalCond a params e
    let (rb, rest') := evalCond b rest e
    (ra || rb, rest')

/-- Insert into a list sorted by `ORDER BY strength DESC, created_at DESC`. -/
def insertByOrder (e : Edge) : List Edge → List Edge
  | [] => [e]
  | f :: fs =>
    if e.strength > f.strength ∨ (e.strength = f.strength ∧ e.created_at ≥ f.created_at)
    then e :: f :: fs
    else f :: insertByOrder e fs

/-- `ORDER BY strength DESC, created_at DESC`. -/
def sortRows (rows : List Edge) : List Edge :=
  rows.foldr insertByOrder []

/-- `get_related_memories(memory_id, relationship_type, direction)`: build
the WHERE clause as the source does, run it, and pair each row with the
related memory id (`to` when the row's `from` equals `memory_id`, else
`from`).  A clause the SQL grammar rejects raises
`sqlite3.OperationalError`, modelled as `Except.error`. -/
def get_related_memories (tbl : List Edge) (memory_id : String)
    (relationship_type : Option String := none) (direction : String := "both") :
    Except String (List (String × Edge)) :=
  let (wc, params) := whereClause memory_id relationship_type direction
  match parseWhere wc with
  | none => Except.error "sqlite3.OperationalError: syntax error in WHERE clause"
  | some c =>
    let rows := tbl.filter (fun e => (evalCond c params e).1)
    let sorted := sortRows rows
    Except.ok (sorted.map (fun e =>
      (if e.from_memory_id = memory_id then e.to_memory_id else e.from_memory_id, e)))

/-- `detect_contradictions(memory_id)` =
`get_related_memories(memory_id, "contradicts", "both")`. -/
def detect_contradictions (tbl : List Edge) (memory_id : String) :
    Except String (List (String × Edge)) :=
  get_related_memories tbl memory_id (some "contradicts") "both"

end RelationshipMapper

/-- C1: the claim says `calculate_importance` adds a +0.2 length bonus for
more than 100 words.  The source tests `word_count > 50` first and only
`elif word_count > 100`, so the +0.2 branch is unreachable: a 101-word
content with no other signals scores 0.5 + 0.1 = 0.6, not 0.5 + 0.2 = 0.7.
This is a code bug: the dead `elif` branch shows the intended bonus. -/
theorem C1_length_bonus_dead_branch :
    (PyStr.pySplit ImportanceEngine.words101).length = 101 ∧
    ImportanceEngine.calculate_importance ImportanceEngine.words101 = 3/5 ∧
    ImportanceEngine.calculate_importance ImportanceEngine.words101 ≠ 7/10 := by
  refine ⟨by decide, by decide, by decide⟩

/-- A table holding one `contradicts` edge touching `"m1"`, used as the C2
failing input. -/
def contraTbl : List RelationshipMapper.Edge :=
  [⟨RelationshipMapper.relId "m1" "m2" "contradicts", "m1", "m2", "contradicts",
    1/2, "conflict", 5⟩]

/-- C2: the claim says `get_related_memories(id, None, "both")` returns the
stored edges sorted by `(strength desc, created_at desc)` and that
`detect_contradictions` equals that call with `relationship_type =
"contradicts"`.  In fact for `direction="both"` the source appends the
condition string `"OR to_memory_id = ?"` and then also joins with `" OR "`,
producing the clause `"from_memory_id = ? OR OR to_memory_id = ?"`, which no
SQLite boolean-expression grammar accepts: every such call (and therefore
every `detect_contradictions` call) raises `sqlite3.OperationalError` instead
of returning rows — here even though a matching `contradicts` edge exists. -/
theorem C2_direction_both_syntax_error :
    (RelationshipMapper.whereClause "m1" none "both").1 =
      "from_memory_id = ? OR OR to_memory_id = ?" ∧
    RelationshipMapper.parseWhere "from_memory_id = ? OR OR to_memory_id = ?" = none ∧
    RelationshipMapper.get_related_memories contraTbl "m1" none "both" =
      Except.error "sqlite3.OperationalError: syntax error in WHERE clause" ∧
    RelationshipMapper.detect_contradictions contraTbl "m1" =
      Except.error "sqlite3.OperationalError: syntax error in WHERE clause" := by
  refine ⟨by decide, by decide, by decide, by decide⟩

/-- C4 counterexample: `link_memories` uses `INSERT OR IGNORE`, so after
two calls on the same `(from, to, kind)` the stored strength and evidence
are those of the FIRST call (0.7, "e1"), not the second (0.3, "e2") as the
claim states. -/
theorem C4_second_call_not_stored_counterexample :
    RelationshipMapper.link_memories [] "a" "b" "supports" "e1" (7/10) 100 =
      Except.ok ("absupports",
        [⟨"absupports", "a", "b", "supports", 7/10, "e1", 100⟩]) ∧
    RelationshipMapper.link_memories
        [⟨"absupports", "a", "b", "supports", 7/10, "e1", 100⟩]
        "a" "b" "supports" "e2" (3/10) 200 =
      Except.ok ("absupports",
        [⟨"absupports", "a", "b", "supports", 7/10, "e1", 100⟩]) ∧
    (7/10 : ℚ) ≠ 3/10 := by
  refine ⟨by decide, by decide, by decide⟩

/-- C4 amended: after two `link_memories(a, b, kind, ...)` calls exactly one
edge keyed `(a, b, kind)` exists, and because `link_memories` inserts-or-
IGNOREs (not an upsert), its stored strength and evidence are those of the
first call; the second call changes nothing and returns the same edge id. -/
theorem C4_link_insert_or_ignore :
    ∀ (a b k e1 e2 : String) (s1 s2 : ℚ) (n1 n2 : Int),
      k ∈ RelationshipMapper.valid_types →
      0 ≤ s1 → s1 ≤ 1 → 0 ≤ s2 → s2 ≤ 1 →
      ∃ rid tbl1,
        RelationshipMapper.link_memories [] a b k e1 s1 n1 = Except.ok (rid, tbl1) ∧
        RelationshipMapper.link_memories tbl1 a b k e2 s2 n2 = Except.ok (rid, tbl1) ∧
        tbl1 = [⟨RelationshipMapper.relId a b k, a, b, k, s1, e1, n1⟩] := by
  intro a b k e1 e2 s1 s2 n1 n2 hk h1 h2 h3 h4
  refine ⟨RelationshipMapper.relId a b k,
    [⟨RelationshipMapper.relId a b k, a, b, k, s1, e1, n1⟩], ?_, ?_, rfl⟩
  · simp [RelationshipMapper.link_memories, hk, h1, h2]
  · simp [RelationshipMapper.link_memories, hk, h3, h4]

/-- C4 witness: the amended theorem applied at a concrete input. -/
theorem C4_link_insert_or_ignore_witness :
    ∃ rid tbl1,
      RelationshipMapper.link_memories [] "a" "b" "supports" "ev1" (7/10) 100 =
        Except.ok (rid, tbl1) ∧
      RelationshipMapper.link_memories tbl1 "a" "b" "supports" "ev2" (3/10) 200 =
        Except.ok (rid, tbl1) ∧
      tbl1 = [⟨RelationshipMapper.relId "a" "b" "supports",
        "a", "b", "supports", 7/10, "ev1", 100⟩] :=
  C4_link_insert_or_ignore "a" "b" "supports" "ev1" "ev2" (7/10) (3/10) 100 200
    (by decide) (by decide) (by decide) (by decide) (by decide)


/-! ## src/src/daily_memory_maintenance.py

`MemoryTSClient` itself is not part of the sources; its two operations used
by the maintenance pipeline are modelled from the spec (§4.B).  The store is
a list of records; Python `float` importance is exact `ℚ`, and record
timestamps are whole-day indices, so `(now - created_dt).days` is integer
subtraction.
-/

namespace Maintenance

/-- A memory record as the maintenance pipeline sees it. -/
structure Memory where
  id : String
  importance : ℚ
  created : Int
  status : String
  tags : List String
deriving DecidableEq, Repr

/-- Modelled from the spec: `MemoryTSClient.search()` — §4.B `list` "returns
all *active* records unless explicitly asked otherwise". -/
def search (store : List Memory) : List Memory :=
  store.filter (fun m => m.status = "active")

/-- Modelled from the spec: `MemoryTSClient.update(id, importance=...)` —
§4.B `update(id, patch)`; the Record Store is the sole writer and patches the
named record in place. -/
def updateImportance (store : List Memory) (id : String) (imp : ℚ) : List Memory :=
  store.map (fun m => if m.id = id then { m with importance := imp } else m)

/-- Modelled from the spec: `MemoryTSClient.update(id, status=..., tags=...)`
— §4.B `update(id, patch)` used by archival. -/
def updateArchive (store : List Memory) (id : String) (tags : List String) : List Memory :=
  store.map (fun m => if m.id = id then { m with status := "archived", tags := tags } else m)

/-- Loop body of `apply_decay_to_all`: days since `created` (the source's
"proxy for last access"), §4.E decay, write back when the value differs
(exact comparison, as the source's f64 `!=`). -/
def decayStep (now : Int) (acc : List Memory × Nat) (m : Memory) : List Memory × Nat :=
  let days := now - m.created
  if days > 0 then
    let ni := ImportanceEngine.apply_decay m.importance days
    if ni ≠ m.importance then (updateImportance acc.1 m.id ni, acc.2 + 1)
    else acc
  else acc

/-- `apply_decay_to_all(memory_dir)`: decay every searched record, counting
write-backs. -/
def apply_decay_to_all (now : Int) (store : List Memory) : List Memory × Nat :=
  (search store).foldl (decayStep now) (store, 0)

/-- Loop body of `archive_low_importance`. -/
def archiveStep (threshold : ℚ) (acc : List Memory × Nat) (m : Memory) : List Memory × Nat :=
  if m.importance < threshold ∧ m.status = "active" then
    let tags := if "#archived" ∈ m.tags then m.tags else m.tags ++ ["#archived"]
    (updateArchive acc.1 m.id tags, acc.2 + 1)
  else acc

/-- `archive_low_importance(memory_dir, threshold=0.2)`. -/
def archive_low_importance (store : List Memory) (threshold : ℚ) : List Memory × Nat :=
  (search store).foldl (archiveStep threshold) (store, 0)

/-- Result of one `MaintenanceRunner.run(dry_run=False)` call. -/
structure RunResult where
  store : List Memory
  decay_count : Nat
  archived_count : Nat
deriving DecidableEq, Repr

/-- `MaintenanceRunner.run(dry_run=False)`: decay, then archive below 0.2
(stats and health checks do not touch the store). -/
def run (now : Int) (store : List Memory) : RunResult :=
  let decayed := apply_decay_to_all now store
  let archived := archive_low_importance decayed.1 (1/5)
  ⟨archived.1, decayed.2, archived.2⟩

/-- The single-record corpus used against claim C3: importance 0.5, created
10 days before `now`, active. -/
def corpus0 : List Memory := [⟨"m1", 1/2, 0, "active", []⟩]

end Maintenance

/-- For a positive day count, decay changes the importance exactly when it
is nonzero: `0.99^d < 1`, so a positive value strictly shrinks, a negative
value is clipped to `0`, and `0` is a fixed point. -/
theorem apply_decay_ne_iff (imp : ℚ) (d : Int) (hd : 0 < d) :
    (ImportanceEngine.apply_decay imp d ≠ imp) ↔ imp ≠ 0 := by
  have hn : d.toNat ≠ 0 := by omega
  have hq0 : (0 : ℚ) < (99/100 : ℚ) ^ d.toNat := pow_pos (by norm_num) _
  have hq1 : ((99/100 : ℚ)) ^ d.toNat < 1 := pow_lt_one₀ (by norm_num) (by norm_num) hn
  have hneg : ¬ d < 0 := by omega
  unfold ImportanceEngine.apply_decay
  simp only [if_neg hneg]
  rcases lt_trichotomy imp 0 with h | h | h
  · have hx : imp * (99/100 : ℚ) ^ d.toNat < 0 := mul_neg_of_neg_of_pos h hq0
    have h0 : ¬ (0 : ℚ) = imp := fun hz => h.ne hz.symm
    simp [pyMax, hx.le, h.ne, h0]
  · subst h
    simp [pyMax]
  · have hx : 0 < imp * (99/100 : ℚ) ^ d.toNat := mul_pos h hq0
    have hlt : imp * (99/100 : ℚ) ^ d.toNat < imp := by
      calc imp * (99/100 : ℚ) ^ d.toNat < imp * 1 := by
            exact mul_lt_mul_of_pos_left hq1 h
        _ = imp := mul_one imp
    simp [pyMax, not_le.mpr hx, hlt.ne, h.ne.symm]


/-- The decay loop body increments the counter exactly for records with a
positive day count and nonzero importance. -/
theorem decayStep_snd (now : Int) (acc : List Maintenance.Memory × Nat)
    (m : Maintenance.Memory) :
    (Maintenance.decayStep now acc m).2 =
      if 0 < now - m.created ∧ m.importance ≠ 0 then acc.2 + 1 else acc.2 := by
  unfold Maintenance.decayStep
  by_cases hd : now - m.created > 0
  · simp only [if_pos hd]
    have hiff := apply_decay_ne_iff m.importance (now - m.created) hd
    by_cases hi : m.importance = 0
    · have hz : ImportanceEngine.apply_decay m.importance (now - m.created) =
        m.importance := not_ne_iff.mp (fun hc => (hiff.mp hc) hi)
      rw [hi] at hz
      simp [hd, hi, hz]
    · simp [hiff.mpr hi, hd, hi]
  · simp [hd]

/-- Folding the decay loop counts exactly the qualifying snapshot records. -/
theorem decay_foldl_count (now : Int) (mems : List Maintenance.Memory) :
    ∀ acc : List Maintenance.Memory × Nat,
      ((mems.foldl (Maintenance.decayStep now) acc).2 =
        acc.2 + mems.countP
          (fun m => decide (0 < now - m.created ∧ m.importance ≠ 0))) := by
  induction mems with
  | nil => intro acc; simp
  | cons m ms ih =>
    intro acc
    simp only [List.foldl_cons, List.countP_cons]
    rw [ih]
    have hsnd := decayStep_snd now acc m
    by_cases hp : 0 < now - m.created ∧ m.importance ≠ 0
    · have hdec : decide (0 < now - m.created ∧ m.importance ≠ 0) = true := by
        simpa using hp
      simp only [if_pos hp] at hsnd
      rw [hsnd, hdec]
      simp
      omega
    · have hdec : decide (0 < now - m.created ∧ m.importance ≠ 0) = false := by
        simpa using hp
      simp only [if_neg hp] at hsnd
      rw [hsnd, hdec]
      simp

/-- The archive loop body increments the counter exactly for active records
below the threshold. -/
theorem archiveStep_snd (threshold : ℚ) (acc : List Maintenance.Memory × Nat)
    (m : Maintenance.Memory) :
    (Maintenance.archiveStep threshold acc m).2 =
      if m.importance < threshold ∧ m.status = "active" then acc.2 + 1 else acc.2 := by
  unfold Maintenance.archiveStep
  by_cases hp : m.importance < threshold ∧ m.status = "active"
  · simp [hp]
  · simp [hp]

/-- Folding the archive loop counts exactly the qualifying snapshot records. -/
theorem archive_foldl_count (threshold : ℚ) (mems : List Maintenance.Memory) :
    ∀ acc : List Maintenance.Memory × Nat,
      ((mems.foldl (Maintenance.archiveStep threshold) acc).2 =
        acc.2 + mems.countP
          (fun m => decide (m.importance < threshold ∧ m.status = "active"))) := by
  induction mems with
  | nil => intro acc; simp
  | cons m ms ih =>
    intro acc
    simp only [List.foldl_cons, List.countP_cons]
    rw [ih]
    have hsnd := archiveStep_snd threshold acc m
    by_cases hp : m.importance < threshold ∧ m.status = "active"
    · have hdec : decide (m.importance < threshold ∧ m.status = "active") = true := by
        simpa using hp
      simp only [if_pos hp] at hsnd
      rw [hsnd, hdec]
      simp
      omega
    · have hdec : decide (m.importance < threshold ∧ m.status = "active") = false := by
        simpa using hp
      simp only [if_neg hp] at hsnd
      rw [hsnd, hdec]
      simp

/-- C3 counterexample: on a corpus with one active memory (importance 0.5,
created 10 days before `now`), a second maintenance run still reports
`decay_count = 1`, not 0: decay is recomputed from `created` (which `update`
does not change), so `importance * 0.99^10 ≠ importance` again. -/
theorem C3_second_run_decays_again_counterexample :
    (Maintenance.run 10 (Maintenance.run 10 Maintenance.corpus0).store).decay_count = 1 ∧
    (Maintenance.run 10 (Maintenance.run 10 Maintenance.corpus0).store).decay_count ≠ 0 := by
  refine ⟨by decide, by decide⟩

/-- C3 amended: on the second of two identical maintenance runs,
`decay_count` equals the number of active records with a positive day count
since `created` and nonzero importance (each is decayed *again*, because the
day count is measured from the unchanged `created` timestamp and the
write-back comparison is exact inequality of the stored value), and
`archived_count` equals the number of records that are still active with
importance (as re-decayed by the second run) below 0.2. -/
theorem C3_second_run_counts (now : Int) (store : List Maintenance.Memory) :
    (Maintenance.run now (Maintenance.run now store).store).decay_count =
      (Maintenance.search (Maintenance.run now store).store).countP
        (fun m => decide (0 < now - m.created ∧ m.importance ≠ 0)) ∧
    (Maintenance.run now (Maintenance.run now store).store).archived_count =
      (Maintenance.search
          (Maintenance.apply_decay_to_all now (Maintenance.run now store).store).1).countP
        (fun m => decide (m.importance < 1/5 ∧ m.status = "active")) := by
  constructor
  · show (Maintenance.apply_decay_to_all now (Maintenance.run now store).store).2 = _
    unfold Maintenance.apply_decay_to_all
    rw [decay_foldl_count]
    simp
  · show (Maintenance.archive_low_importance
      (Maintenance.apply_decay_to_all now (Maintenance.run now store).store).1 (1/5)).2 = _
    unfold Maintenance.archive_low_importance
    rw [archive_foldl_count]
    simp


/-! ## src/src/circuit_breaker.py

The breaker is a state machine; `time.monotonic()` is modelled by passing
the current time `now : ℚ` into each operation.  The wrapped function is
modelled by its outcome (`success` or `failure`); `call` reports whether it
invoked the function and what it raised.
-/

namespace CircuitBreaker

/-- Mutable fields of a `CircuitBreaker` instance. -/
structure Breaker where
  failure_threshold : Nat
  recovery_timeout : ℚ
  name : String
  state : String
  failure_count : Nat
  last_failure_time : ℚ
deriving DecidableEq, Repr

/-- `CircuitBreaker.__init__`. -/
def mkBreaker (failure_threshold : Nat) (recovery_timeout : ℚ) (name : String) : Breaker :=
  ⟨failure_threshold, recovery_timeout, name, "CLOSED", 0, 0⟩

/-- The `state` property: lazily flips OPEN to HALF_OPEN once
`now - last_failure_time ≥ recovery_timeout` (and a failure was recorded). -/
def readState (now : ℚ) (b : Breaker) : String × Breaker :=
  if b.state = "OPEN" ∧ b.last_failure_time > 0 ∧
      now - b.last_failure_time ≥ b.recovery_timeout then
    ("HALF_OPEN", { b with state := "HALF_OPEN" })
  else (b.state, b)

/-- `_on_failure`: count, stamp the failure time, open at the threshold. -/
def onFailure (now : ℚ) (b : Breaker) : Breaker :=
  let c := b.failure_count + 1
  { b with
    failure_count := c
    last_failure_time := now
    state := if c ≥ b.failure_threshold then "OPEN" else b.state }

/-- `_on_success`: reset the counter and close. -/
def onSuccess (b : Breaker) : Breaker :=
  { b with failure_count := 0, state := "CLOSED" }

/-- The message of `CircuitBreakerOpenError`. -/
def openMessage (b : Breaker) : String :=
  "Circuit breaker '" ++ b.name ++ "' is OPEN (" ++
    toString b.failure_count ++ " consecutive failures)"

/-- Outcome of the function wrapped by `call`. -/
inductive Outcome where
  | success
  | failure
deriving DecidableEq, Repr

/-- What a `call` did. -/
inductive CallResult where
  | ok
  | fnError
  | breakerOpen (msg : String)
deriving DecidableEq, Repr

/-- Result triple of `call`: what it raised or returned, whether the wrapped
function was invoked, and the post-state. -/
structure CallStep where
  result : CallResult
  invoked : Bool
  breaker : Breaker
deriving DecidableEq, Repr

/-- `CircuitBreaker.call(fn)`: read the state (triggering the timeout
check); raise `CircuitBreakerOpenError` without invoking `fn` when OPEN;
otherwise run `fn` and record success or failure. -/
def call (now : ℚ) (outcome : Outcome) (b : Breaker) : CallStep :=
  let sb := readState now b
  if sb.1 = "OPEN" then
    ⟨CallResult.breakerOpen (openMessage sb.2), false, sb.2⟩
  else
    match outcome with
    | Outcome.failure => ⟨CallResult.fnError, true, onFailure now sb.2⟩
    | Outcome.success => ⟨CallResult.ok, true, onSuccess sb.2⟩

end CircuitBreaker

/-- A list starts with its own prefix. -/
theorem startsWithL_append (mm ss : List Char) :
    PyStr.startsWithL (mm ++ ss) mm = true := by
  induction mm with
  | nil => simp [PyStr.startsWithL]
  | cons d ds ihm => simp [PyStr.startsWithL, ihm]

/-- The empty needle is found in every haystack. -/
theorem hasSubstrL_nil (s : List Char) : PyStr.hasSubstrL s [] = true := by
  induction s with
  | nil => simp [PyStr.hasSubstrL]
  | cons c cs ih => simp [PyStr.hasSubstrL, PyStr.startsWithL]

/-- Splitting a list around an infix makes `hasSubstrL` find it. -/
theorem hasSubstrL_of_parts (p m s : List Char) :
    PyStr.hasSubstrL (p ++ (m ++ s)) m = true := by
  induction p with
  | nil =>
    cases m with
    | nil => simpa using hasSubstrL_nil s
    | cons c cs =>
      have h := startsWithL_append (c :: cs) s
      simp only [List.nil_append, PyStr.hasSubstrL]
      rw [show (c :: cs) ++ s = c :: (cs ++ s) from rfl] at h
      simp [h]
  | cons c cs ih =>
    simp only [List.cons_append, PyStr.hasSubstrL]
    have ih' : PyStr.hasSubstrL (cs.append (m ++ s)) m = true := ih
    rw [ih']
    simp

/-- `hasSubstr` on strings assembled by concatenation. -/
theorem hasSubstr_of_parts (p m s : String) :
    PyStr.hasSubstr (p ++ m ++ s) m = true := by
  have : (p ++ m ++ s).toList = p.data ++ (m.data ++ s.data) := by
    simp [String.toList]
  simpa [PyStr.hasSubstr, this] using hasSubstrL_of_parts p.data m.data s.data


/-- `hasSubstr` finds a middle piece of a three-part concatenation. -/
theorem hasSubstr_mid (p m s : String) :
    PyStr.hasSubstr (p ++ (m ++ s)) m = true := by
  have hdata : (p ++ (m ++ s)).toList = p.data ++ (m.data ++ s.data) := by
    simp [String.toList]
  simpa [PyStr.hasSubstr, hdata] using hasSubstrL_of_parts p.data m.data s.data

/-- The open-breaker error message contains the breaker's name. -/
theorem openMessage_contains_name (b : CircuitBreaker.Breaker) :
    PyStr.hasSubstr (CircuitBreaker.openMessage b) b.name = true := by
  have he : CircuitBreaker.openMessage b =
      "Circuit breaker '" ++ (b.name ++
        ("' is OPEN (" ++ toString b.failure_count ++ " consecutive failures)")) := by
    simp [CircuitBreaker.openMessage, String.append_assoc]
  rw [he]
  exact hasSubstr_mid _ _ _

/-- The open-breaker error message contains the failure count. -/
theorem openMessage_contains_count (b : CircuitBreaker.Breaker) :
    PyStr.hasSubstr (CircuitBreaker.openMessage b) (toString b.failure_count) = true := by
  have he : CircuitBreaker.openMessage b =
      ("Circuit breaker '" ++ b.name ++ "' is OPEN (") ++
        (toString b.failure_count ++ " consecutive failures)") := by
    simp [CircuitBreaker.openMessage, String.append_assoc]
  rw [he]
  exact hasSubstr_mid _ _ _

/-- The breaker reached by three consecutive failing calls on a fresh
threshold-3 breaker. -/
def afterThreeFailures (nm : String) (t t1 t2 t3 : ℚ) : CircuitBreaker.Breaker :=
  (CircuitBreaker.call t3 CircuitBreaker.Outcome.failure
    ((CircuitBreaker.call t2 CircuitBreaker.Outcome.failure
      ((CircuitBreaker.call t1 CircuitBreaker.Outcome.failure
        (CircuitBreaker.mkBreaker 3 t nm)).breaker)).breaker)).breaker

/-- Three consecutive failures on a fresh threshold-3 breaker produce
`OPEN` with `failure_count = 3` and the last failure time stamped. -/
theorem afterThreeFailures_eq (nm : String) (t t1 t2 t3 : ℚ) :
    afterThreeFailures nm t t1 t2 t3 = ⟨3, t, nm, "OPEN", 3, t3⟩ := by
  simp [afterThreeFailures, CircuitBreaker.call, CircuitBreaker.readState,
    CircuitBreaker.onFailure, CircuitBreaker.mkBreaker]


/-- C5: with threshold 3 and recovery timeout `t`, three consecutive failing
calls leave the breaker OPEN; a further call within the timeout raises
`CircuitBreakerOpenError` — whose message contains the breaker name and the
failure count — without invoking the wrapped function; once `t` seconds have
elapsed since the last failure, reading `state` yields HALF_OPEN, after
which one successful call closes the breaker with `failure_count = 0` and
one failing call reopens it. -/
theorem C5_breaker_cycle (nm : String) (t t1 t2 t3 t4 t5 : ℚ)
    (h3pos : 0 < t3) (h4 : t4 - t3 < t) (h5 : t5 - t3 ≥ t) :
    (afterThreeFailures nm t t1 t2 t3).state = "OPEN" ∧
    (CircuitBreaker.readState t4 (afterThreeFailures nm t t1 t2 t3)).1 = "OPEN" ∧
    (∀ o : CircuitBreaker.Outcome,
      (CircuitBreaker.call t4 o (afterThreeFailures nm t t1 t2 t3)).result =
        CircuitBreaker.CallResult.breakerOpen
          (CircuitBreaker.openMessage (afterThreeFailures nm t t1 t2 t3)) ∧
      (CircuitBreaker.call t4 o (afterThreeFailures nm t t1 t2 t3)).invoked = false) ∧
    PyStr.hasSubstr (CircuitBreaker.openMessage (afterThreeFailures nm t t1 t2 t3)) nm
      = true ∧
    PyStr.hasSubstr (CircuitBreaker.openMessage (afterThreeFailures nm t t1 t2 t3))
      (toString (3 : Nat)) = true ∧
    (CircuitBreaker.readState t5 (afterThreeFailures nm t t1 t2 t3)).1 = "HALF_OPEN" ∧
    ((CircuitBreaker.call t5 CircuitBreaker.Outcome.success
        (afterThreeFailures nm t t1 t2 t3)).breaker.state = "CLOSED" ∧
      (CircuitBreaker.call t5 CircuitBreaker.Outcome.success
        (afterThreeFailures nm t t1 t2 t3)).breaker.failure_count = 0 ∧
      (CircuitBreaker.call t5 CircuitBreaker.Outcome.success
        (afterThreeFailures nm t t1 t2 t3)).invoked = true) ∧
    ((CircuitBreaker.call t5 CircuitBreaker.Outcome.failure
        (afterThreeFailures nm t t1 t2 t3)).breaker.state = "OPEN" ∧
      (CircuitBreaker.call t5 CircuitBreaker.Outcome.failure
        (afterThreeFailures nm t t1 t2 t3)).invoked = true) := by
  rw [afterThreeFailures_eq]
  refine ⟨rfl, ?_, ?_, openMessage_contains_name _, openMessage_contains_count _,
    ?_, ⟨?_, ?_, ?_⟩, ?_, ?_⟩
  · simp [CircuitBreaker.readState, h4.not_le]
  · intro o
    refine ⟨?_, ?_⟩ <;>
      simp [CircuitBreaker.call, CircuitBreaker.readState, h4.not_le]
  · simp [CircuitBreaker.readState, h3pos, h5]
  · simp [CircuitBreaker.call, CircuitBreaker.readState, CircuitBreaker.onSuccess,
      h3pos, h5]
  · simp [CircuitBreaker.call, CircuitBreaker.readState, CircuitBreaker.onSuccess,
      h3pos, h5]
  · simp [CircuitBreaker.call, CircuitBreaker.readState, CircuitBreaker.onSuccess,
      h3pos, h5]
  · simp [CircuitBreaker.call, CircuitBreaker.readState, CircuitBreaker.onFailure,
      h3pos, h5]
  · simp [CircuitBreaker.call, CircuitBreaker.readState, CircuitBreaker.onFailure,
      h3pos, h5]

/-- C5 witness: the breaker cycle at name `"llm"`, timeout 60 and call times
1, 2, 3, 4, 63. -/
theorem C5_breaker_cycle_witness :
    (afterThreeFailures "llm" 60 1 2 3).state = "OPEN" ∧
    (CircuitBreaker.readState 4 (afterThreeFailures "llm" 60 1 2 3)).1 = "OPEN" ∧
    (CircuitBreaker.call 4 CircuitBreaker.Outcome.success
      (afterThreeFailures "llm" 60 1 2 3)).invoked = false ∧
    PyStr.hasSubstr (CircuitBreaker.openMessage (afterThreeFailures "llm" 60 1 2 3))
      "llm" = true ∧
    (CircuitBreaker.readState 63 (afterThreeFailures "llm" 60 1 2 3)).1 = "HALF_OPEN" ∧
    (CircuitBreaker.call 63 CircuitBreaker.Outcome.success
      (afterThreeFailures "llm" 60 1 2 3)).breaker.state = "CLOSED" ∧
    (CircuitBreaker.call 63 CircuitBreaker.Outcome.success
      (afterThreeFailures "llm" 60 1 2 3)).breaker.failure_count = 0 ∧
    (CircuitBreaker.call 63 CircuitBreaker.Outcome.failure
      (afterThreeFailures "llm" 60 1 2 3)).breaker.state = "OPEN" := by
  have h := C5_breaker_cycle "llm" 60 1 2 3 4 63 (by norm_num) (by norm_num) (by norm_num)
  exact ⟨h.1, h.2.1, (h.2.2.1 CircuitBreaker.Outcome.success).2, h.2.2.2.1,
    h.2.2.2.2.2.1, h.2.2.2.2.2.2.1.1, h.2.2.2.2.2.2.1.2.1, h.2.2.2.2.2.2.2.1⟩


/-! ## src/src/vector_store.py

The FAISS index is the position-ordered list of stored vectors; the JSON
sidecar is the `hash_to_pos` association list plus per-hash metadata.  The
two persisted files are modelled by the `persisted` field, which `_save`
overwrites with the current in-memory triple.  The vector type is left
abstract (`α`) and `_normalize` is a parameter `nf`, instantiated with the
real normalisation for claim C10.
-/

namespace VectorStore

/-- In-memory state of a `VectorStore` plus the persisted file pair. -/
structure State (α : Type) where
  index : List α
  hash_to_pos : List (String × Nat)
  pos_to_hash : List (Nat × String)
  metadata : List (String × String)
  persisted : List α × List (String × Nat) × List (String × String)

/-- A fresh store over an empty persist directory. -/
def init {α : Type} : State α := ⟨[], [], [], [], ([], [], [])⟩

/-- `count()`. -/
def count {α : Type} (s : State α) : Nat := s.hash_to_pos.length

/-- `self._index.ntotal`. -/
def ntotal {α : Type} (s : State α) : Nat := s.index.length

/-- `self._index.reconstruct(pos)`. -/
def reconstruct {α : Type} [Inhabited α] (s : State α) (pos : Nat) : α :=
  s.index.getD pos default

/-- Insert into a list sorted ascending by position (for
`sorted(self._hash_to_pos.items(), key=lambda x: x[1])`). -/
def insertPos (p : String × Nat) : List (String × Nat) → List (String × Nat)
  | [] => [p]
  | q :: qs => if p.2 ≤ q.2 then p :: q :: qs else q :: insertPos p qs

/-- Sort hash→position entries by position. -/
def sortByPos (l : List (String × Nat)) : List (String × Nat) :=
  l.foldr insertPos []

/-- Python dict assignment `m[h] = v` on an association list. -/
def setAssoc (m : List (String × String)) (h v : String) : List (String × String) :=
  if (m.lookup h).isSome then m.map (fun q => if q.1 = h then (h, v) else q)
  else m ++ [(h, v)]

/-- One iteration of the `_remove_from_index` rebuild loop: append a
surviving vector and its maps entry at the next free position. -/
def rebuildStep {α : Type} [Inhabited α] (src : State α) (st : State α)
    (p : String × Nat) : State α :=
  let pos := st.index.length
  { st with
    index := st.index ++ [reconstruct src p.2]
    hash_to_pos := st.hash_to_pos ++ [(p.1, pos)]
    pos_to_hash := st.pos_to_hash ++ [(pos, p.1)] }

/-- `_remove_from_index(content_hash)`: collect every other vector in
position order, rebuild the index and both maps from scratch, and drop the
hash's metadata. -/
def removeFromIndex {α : Type} [Inhabited α] (h : String) (s : State α) : State α :=
  if (s.hash_to_pos.lookup h).isNone then s
  else
    let remaining := (sortByPos s.hash_to_pos).filter (fun p => p.1 ≠ h)
    let rebuilt := remaining.foldl (rebuildStep s)
      { s with index := [], hash_to_pos := [], pos_to_hash := [] }
    { rebuilt with metadata := s.metadata.filter (fun q => q.1 ≠ h) }

/-- `_save()`: rewrite the index file and the JSON sidecar. -/
def save {α : Type} (s : State α) : State α :=
  { s with persisted := (s.index, s.hash_to_pos, s.metadata) }

/-- Body shared by `store_embedding` and the `batch_store` loop: normalize,
remove an existing entry for the hash, append at the end, record metadata
when one is given (`if metadata:`). -/
def storeOne {α : Type} [Inhabited α] (nf : α → α) (s : State α)
    (item : String × α × Option String) : State α :=
  let h := item.1
  let vec := nf item.2.1
  let s := if (s.hash_to_pos.lookup h).isSome then removeFromIndex h s else s
  let pos := s.index.length
  let s := { s with
    index := s.index ++ [vec]
    hash_to_pos := s.hash_to_pos ++ [(h, pos)]
    pos_to_hash := s.pos_to_hash ++ [(pos, h)] }
  match item.2.2 with
  | some mv => { s with metadata := setAssoc s.metadata h mv }
  | none => s

/-- `store_embedding(content_hash, embedding, metadata)`. -/
def store_embedding {α : Type} [Inhabited α] (nf : α → α) (h : String) (v : α)
    (meta : Option String) (s : State α) : State α :=
  save (storeOne nf s (h, v, meta))

/-- `batch_store(items)`: mutate per item, persist once at the end; an empty
items list returns immediately without saving. -/
def batch_store {α : Type} [Inhabited α] (nf : α → α)
    (items : List (String × α × Option String)) (s : State α) : State α :=
  if items.isEmpty then s else save (items.foldl (storeOne nf) s)

/-- `delete_embedding(content_hash)`: missing hashes return without saving;
otherwise remove, pop metadata (again), persist. -/
def delete_embedding {α : Type} [Inhabited α] (h : String) (s : State α) : State α :=
  if (s.hash_to_pos.lookup h).isNone then s
  else
    let s := removeFromIndex h s
    save { s with metadata := s.metadata.filter (fun q => q.1 ≠ h) }

/-- The mutating operations of claim C6. -/
inductive Op (α : Type) where
  | store (h : String) (v : α) (meta : Option String) : Op α
  | batch (items : List (String × α × Option String)) : Op α
  | del (h : String) : Op α

/-- Apply one mutation. -/
def applyOp {α : Type} [Inhabited α] (nf : α → α) : Op α → State α → State α
  | Op.store h v meta, s => store_embedding nf h v meta s
  | Op.batch items, s => batch_store nf items s
  | Op.del h, s => delete_embedding h s

/-- Apply a sequence of mutations to a store. -/
def runOps {α : Type} [Inhabited α] (nf : α → α) (ops : List (Op α)) (s : State α) :
    State α :=
  ops.foldl (fun st op => applyOp nf op st) s

/-- C6 invariant: the map and the index agree in size and the persisted
file pair equals the in-memory state. -/
def Inv {α : Type} (s : State α) : Prop :=
  s.index.length = s.hash_to_pos.length ∧
    s.persisted = (s.index, s.hash_to_pos, s.metadata)

end VectorStore


/-- The rebuild loop grows the index and the hash→position map in lockstep. -/
theorem rebuild_len {α : Type} [Inhabited α] (src : VectorStore.State α) :
    ∀ (remaining : List (String × Nat)) (st : VectorStore.State α),
      st.index.length = st.hash_to_pos.length →
      ((remaining.foldl (VectorStore.rebuildStep src) st).index.length =
        (remaining.foldl (VectorStore.rebuildStep src) st).hash_to_pos.length) := by
  intro remaining
  induction remaining with
  | nil => intro st h; simpa using h
  | cons p ps ih =>
    intro st h
    simp only [List.foldl_cons]
    exact ih _ (by simp [VectorStore.rebuildStep, h])

/-- Removing a present hash leaves the index and the map the same size. -/
theorem removeFromIndex_len {α : Type} [Inhabited α] (h : String)
    (s : VectorStore.State α) (hs : (s.hash_to_pos.lookup h).isSome = true) :
    (VectorStore.removeFromIndex h s).index.length =
      (VectorStore.removeFromIndex h s).hash_to_pos.length := by
  cases hl : s.hash_to_pos.lookup h with
  | none => rw [hl] at hs; simp at hs
  | some v =>
    simp only [VectorStore.removeFromIndex, hl]
    simpa using rebuild_len s _ _ (by simp)

/-- `storeOne` preserves the size agreement between index and map. -/
theorem storeOne_len {α : Type} [Inhabited α] (nf : α → α) (s : VectorStore.State α)
    (item : String × α × Option String) (hs : s.index.length = s.hash_to_pos.length) :
    (VectorStore.storeOne nf s item).index.length =
      (VectorStore.storeOne nf s item).hash_to_pos.length := by
  unfold VectorStore.storeOne
  by_cases hl : (s.hash_to_pos.lookup item.1).isSome
  · have hr := removeFromIndex_len item.1 s hl
    cases item.2.2 with
    | none => simp [hl, VectorStore.setAssoc, hr]
    | some mv => simp [hl, VectorStore.setAssoc, hr]
  · cases item.2.2 with
    | none => simp [hl, VectorStore.setAssoc, hs]
    | some mv => simp [hl, VectorStore.setAssoc, hs]

/-- The `batch_store` loop preserves the size agreement. -/
theorem foldl_storeOne_len {α : Type} [Inhabited α] (nf : α → α) :
    ∀ (items : List (String × α × Option String)) (s : VectorStore.State α),
      s.index.length = s.hash_to_pos.length →
      ((items.foldl (VectorStore.storeOne nf) s).index.length =
        (items.foldl (VectorStore.storeOne nf) s).hash_to_pos.length) := by
  intro items
  induction items with
  | nil => intro s h; simpa using h
  | cons it its ih =>
    intro s h
    simp only [List.foldl_cons]
    exact ih _ (storeOne_len nf s it h)

/-- Every mutation preserves the C6 invariant. -/
theorem applyOp_inv {α : Type} [Inhabited α] (nf : α → α) (op : VectorStore.Op α)
    (s : VectorStore.State α) (h : VectorStore.Inv s) :
    VectorStore.Inv (VectorStore.applyOp nf op s) := by
  cases op with
  | store hh v meta =>
    refine ⟨?_, rfl⟩
    exact storeOne_len nf s (hh, v, meta) h.1
  | batch items =>
    by_cases he : items.isEmpty
    · simpa [VectorStore.applyOp, VectorStore.batch_store, he] using h
    · refine ⟨?_, ?_⟩
      · simpa [VectorStore.applyOp, VectorStore.batch_store, he, VectorStore.save]
          using foldl_storeOne_len nf items s h.1
      · simp [VectorStore.applyOp, VectorStore.batch_store, he, VectorStore.save]
  | del hh =>
    by_cases hl : (s.hash_to_pos.lookup hh).isSome
    · have hr := removeFromIndex_len hh s hl
      constructor
      · simpa [VectorStore.applyOp, VectorStore.delete_embedding,
          Option.isNone_iff_eq_none, Option.isSome_iff_ne_none.mp hl,
          VectorStore.save] using hr
      · simp [VectorStore.applyOp, VectorStore.delete_embedding,
          Option.isNone_iff_eq_none, Option.isSome_iff_ne_none.mp hl,
          VectorStore.save]
    · have hn : (s.hash_to_pos.lookup hh).isNone = true := by
        cases hx : s.hash_to_pos.lookup hh with
        | none => rfl
        | some v => rw [hx] at hl; simp at hl
      simpa [VectorStore.applyOp, VectorStore.delete_embedding, hn] using h

/-- C6: after every sequence of `store_embedding`, `batch_store` and
`delete_embedding` operations on a fresh store, `count()` equals the number
of entries in the hash→position map, which equals the index's `ntotal`, and
the persisted index file and JSON sidecar equal the in-memory state — each
mutation rewrote them before returning. -/
theorem C6_count_invariant_and_persistence :
    ∀ (α : Type) [Inhabited α] (nf : α → α) (ops : List (VectorStore.Op α)),
      VectorStore.count (VectorStore.runOps nf ops VectorStore.init) =
        (VectorStore.runOps nf ops VectorStore.init).hash_to_pos.length ∧
      (VectorStore.runOps nf ops VectorStore.init).hash_to_pos.length =
        VectorStore.ntotal (VectorStore.runOps nf ops VectorStore.init) ∧
      (VectorStore.runOps nf ops VectorStore.init).persisted =
        ((VectorStore.runOps nf ops VectorStore.init).index,
          (VectorStore.runOps nf ops VectorStore.init).hash_to_pos,
          (VectorStore.runOps nf ops VectorStore.init).metadata) := by
  intro α _ nf ops
  have main : ∀ (l : List (VectorStore.Op α)) (s : VectorStore.State α),
      VectorStore.Inv s → VectorStore.Inv (VectorStore.runOps nf l s) := by
    intro l
    induction l with
    | nil => intro s h; simpa [VectorStore.runOps] using h
    | cons op l ih =>
      intro s h
      simp only [VectorStore.runOps, List.foldl_cons]
      exact ih _ (applyOp_inv nf op s h)
  have h := main ops VectorStore.init ⟨rfl, rfl⟩
  exact ⟨rfl, h.1.symm, h.2⟩


/-! ## `VectorStore._normalize` over real vectors (claim C10)

NumPy `float32` vectors are modelled as lists of reals; `np.linalg.norm` is
the L2 norm.  The source divides by the norm only when it is positive, so
the all-zero vector passes through unchanged and no division by zero (hence
no NaN) can occur.
-/

namespace Normalize

/-- Sum of squares of the entries (the square of `np.linalg.norm`). -/
noncomputable def normSq (v : List ℝ) : ℝ := (v.map (fun x => x * x)).sum

/-- `np.linalg.norm(v)`. -/
noncomputable def l2norm (v : List ℝ) : ℝ := Real.sqrt (normSq v)

/-- `VectorStore._normalize`: divide by the norm only when `norm > 0`. -/
noncomputable def normalize (v : List ℝ) : List ℝ :=
  if l2norm v > 0 then v.map (fun x => x / l2norm v) else v

end Normalize

/-- A sum of squares is nonnegative. -/
theorem normSq_nonneg (v : List ℝ) : 0 ≤ Normalize.normSq v := by
  induction v with
  | nil => simp [Normalize.normSq]
  | cons x xs ih =>
    simp only [Normalize.normSq, List.map_cons, List.sum_cons]
    exact add_nonneg (mul_self_nonneg x) ih

/-- Scaling every entry by `1/c` divides the sum of squares by `c²`. -/
theorem normSq_map_div (v : List ℝ) (c : ℝ) :
    Normalize.normSq (v.map (fun x => x / c)) = Normalize.normSq v / (c * c) := by
  induction v with
  | nil => simp [Normalize.normSq]
  | cons x xs ih =>
    simp only [Normalize.normSq, List.map_cons, List.sum_cons] at ih ⊢
    rw [ih]
    ring

/-- C10: `_normalize` never divides by zero: every output has squared norm
1 or 0; the all-zero vector is returned unchanged (squared norm 0, not 1),
and `store_embedding` is total on it — the fresh index then holds exactly
that zero-norm vector, so vectors held in the index have norm 1 *or 0*. -/
theorem C10_normalize_zero_safe :
    (∀ v : List ℝ, Normalize.normSq (Normalize.normalize v) = 1 ∨
      Normalize.normSq (Normalize.normalize v) = 0) ∧
    Normalize.normalize [(0 : ℝ), 0, 0] = [(0 : ℝ), 0, 0] ∧
    Normalize.normSq (Normalize.normalize [(0 : ℝ), 0, 0]) = 0 ∧
    (VectorStore.store_embedding Normalize.normalize "zerohash" [(0 : ℝ), 0, 0] none
      VectorStore.init).index = [[(0 : ℝ), 0, 0]] ∧
    (1 : ℝ) ≠ 0 := by
  have hzero : Normalize.normalize [(0 : ℝ), 0, 0] = [(0 : ℝ), 0, 0] := by
    simp [Normalize.normalize, Normalize.l2norm, Normalize.normSq]
  have hall : ∀ v : List ℝ, Normalize.normSq (Normalize.normalize v) = 1 ∨
      Normalize.normSq (Normalize.normalize v) = 0 := by
    intro v
    by_cases hpos : Normalize.l2norm v > 0
    · left
      have hsq : Normalize.l2norm v * Normalize.l2norm v = Normalize.normSq v :=
        Real.mul_self_sqrt (normSq_nonneg v)
      have hns : 0 < Normalize.normSq v := by
        have := Real.sqrt_pos.mp hpos
        exact this
      rw [Normalize.normalize, if_pos hpos, normSq_map_div, hsq]
      exact div_self (ne_of_gt hns)
    · right
      have hle : Normalize.l2norm v = 0 := by
        have hnn : 0 ≤ Normalize.l2norm v := Real.sqrt_nonneg _
        linarith [not_lt.mp hpos]
      have hns : Normalize.normSq v = 0 := by
        have h1 : Normalize.normSq v ≤ 0 := Real.sqrt_eq_zero'.mp hle
        linarith [normSq_nonneg v]
      rw [Normalize.normalize, if_neg hpos]
      exact hns
  refine ⟨hall, hzero, ?_, ?_, one_ne_zero⟩
  · rw [hzero]
    simp [Normalize.normSq]
  · simp [VectorStore.store_embedding, VectorStore.storeOne, VectorStore.init,
      VectorStore.save, hzero]


/-! ## src/src/cross_project_sharing_db.py

The `shared_insights` and `project_sharing_config` tables are association
lists.  `uuid.uuid4()` is modelled by caller-supplied identifier arguments;
the theorems assume those are fresh, reflecting collision-free random UUIDs.
A memory dict is a record of optional fields, mirroring `memory.get(...)`.
-/

namespace Sharing

/-- A row of `shared_insights`. -/
structure Insight where
  id : String
  source_project : String
  target_project : String
  memory_id : String
  memory_content : String
  relevance_score : ℚ
  created_at : Int
  status : String
deriving DecidableEq, Repr

/-- Database state: insights plus the per-project sharing flags. -/
structure DB where
  insights : List Insight
  config : List (String × Bool)
deriving DecidableEq, Repr

/-- The memory dict passed to `share` (fields read with `.get`). -/
structure Mem where
  id : Option String
  project_id : Option String
  content : Option String
deriving DecidableEq, Repr

/-- `is_sharing_enabled(project_id)`: defaults to enabled when no
configuration row exists. -/
def is_sharing_enabled (db : DB) (project_id : String) : Bool :=
  match db.config.lookup project_id with
  | none => true
  | some b => b

/-- Result dict of `share`. -/
structure ShareResult where
  shared : Bool
  id : Option String
  reason : String
deriving DecidableEq, Repr

/-- `share(memory, target_project, relevance_score)`: refuse when sharing is
disabled for the target; insert under the `(memory_id, target_project)`
UNIQUE constraint (and the `id` primary key), reporting a duplicate on
conflict.  `insight_id` and `fresh_mem_id` stand for the two `uuid.uuid4()`
calls; `now` for `int(time.time())`. -/
def share (db : DB) (insight_id fresh_mem_id : String) (memory : Mem)
    (target_project : String) (relevance_score : ℚ) (now : Int) :
    ShareResult × DB :=
  if ¬ is_sharing_enabled db target_project then
    (⟨false, none, "sharing_disabled"⟩, db)
  else
    let memory_id := memory.id.getD fresh_mem_id
    let source_project := memory.project_id.getD "unknown"
    let content := memory.content.getD ""
    if db.insights.any (fun i =>
        (i.memory_id = memory_id ∧ i.target_project = target_project) ∨
          i.id = insight_id) then
      (⟨false, none, "duplicate"⟩, db)
    else
      (⟨true, some insight_id, "success"⟩,
        { db with insights := db.insights ++
            [⟨insight_id, source_project, target_project, memory_id, content,
              relevance_score, now, "active"⟩] })

end Sharing

/-- `share` under a disabled target: refuse, store nothing. -/
theorem share_disabled_eq (db : Sharing.DB) (iid fid : String) (m : Sharing.Mem)
    (t : String) (r : ℚ) (n : Int) (h : Sharing.is_sharing_enabled db t = false) :
    Sharing.share db iid fid m t r n = (⟨false, none, "sharing_disabled"⟩, db) := by
  simp [Sharing.share, h]

/-- `share` with no conflicting row: insert and report success. -/
theorem share_success_eq (db : Sharing.DB) (iid fid : String) (m : Sharing.Mem)
    (t : String) (r : ℚ) (n : Int)
    (hen : Sharing.is_sharing_enabled db t = true)
    (hno : db.insights.any (fun i =>
      (i.memory_id = m.id.getD fid ∧ i.target_project = t) ∨ i.id = iid) = false) :
    Sharing.share db iid fid m t r n =
      (⟨true, some iid, "success"⟩,
        { db with insights := db.insights ++
            [⟨iid, m.project_id.getD "unknown", t, m.id.getD fid, m.content.getD "",
              r, n, "active"⟩] }) := by
  simp only [Sharing.share, hen, hno]
  simp

/-- `share` with a conflicting row: the UNIQUE constraint fires and nothing
is stored. -/
theorem share_duplicate_eq (db : Sharing.DB) (iid fid : String) (m : Sharing.Mem)
    (t : String) (r : ℚ) (n : Int)
    (hen : Sharing.is_sharing_enabled db t = true)
    (hdup : db.insights.any (fun i =>
      (i.memory_id = m.id.getD fid ∧ i.target_project = t) ∨ i.id = iid) = true) :
    Sharing.share db iid fid m t r n = (⟨false, none, "duplicate"⟩, db) := by
  simp only [Sharing.share, hen, hdup]
  simp

/-- C7: `share` returns `sharing_disabled` and stores nothing when sharing
is disabled for the target; sharing defaults to enabled when no
configuration row exists; a first share of a memory with an id succeeds and
stores one row; a second share of the same `(memory id, target project)`
pair returns `duplicate` and leaves the database unchanged. -/
theorem C7_share_dedup_and_disable (db : Sharing.DB) (memory : Sharing.Mem)
    (target mid iid1 fid1 iid2 fid2 : String) (r1 r2 : ℚ) (n1 n2 : Int)
    (hmid : memory.id = some mid)
    (hen : Sharing.is_sharing_enabled db target = true)
    (hnodup : ∀ i ∈ db.insights,
      ¬ (i.memory_id = mid ∧ i.target_project = target) ∧ i.id ≠ iid1) :
    (∀ (db2 : Sharing.DB) (iid fid : String) (m2 : Sharing.Mem) (r : ℚ) (n : Int)
      (t2 : String), Sharing.is_sharing_enabled db2 t2 = false →
      Sharing.share db2 iid fid m2 t2 r n = (⟨false, none, "sharing_disabled"⟩, db2)) ∧
    (∀ (db3 : Sharing.DB) (t3 : String), db3.config.lookup t3 = none →
      Sharing.is_sharing_enabled db3 t3 = true) ∧
    (Sharing.share db iid1 fid1 memory target r1 n1).1 =
      ⟨true, some iid1, "success"⟩ ∧
    (Sharing.share db iid1 fid1 memory target r1 n1).2.insights =
      db.insights ++ [⟨iid1, memory.project_id.getD "unknown", target, mid,
        memory.content.getD "", r1, n1, "active"⟩] ∧
    (Sharing.share (Sharing.share db iid1 fid1 memory target r1 n1).2
        iid2 fid2 memory target r2 n2) =
      (⟨false, none, "duplicate"⟩,
        (Sharing.share db iid1 fid1 memory target r1 n1).2) := by
  have hany : db.insights.any (fun i =>
      (i.memory_id = memory.id.getD fid1 ∧ i.target_project = target) ∨
        i.id = iid1) = false := by
    rw [List.any_eq_false]
    intro i hi
    have h := hnodup i hi
    simp only [hmid, Option.getD_some, decide_eq_true_eq]
    push_neg
    exact ⟨fun hx hy => h.1 ⟨hx, hy⟩, h.2⟩
  have hfirst := share_success_eq db iid1 fid1 memory target r1 n1 hen hany
  have hen2 : Sharing.is_sharing_enabled
      (Sharing.share db iid1 fid1 memory target r1 n1).2 target = true := by
    rw [hfirst]
    simpa [Sharing.is_sharing_enabled] using hen
  have hdup : (Sharing.share db iid1 fid1 memory target r1 n1).2.insights.any
      (fun i => (i.memory_id = memory.id.getD fid2 ∧ i.target_project = target) ∨
        i.id = iid2) = true := by
    rw [hfirst]
    rw [List.any_eq_true]
    refine ⟨⟨iid1, memory.project_id.getD "unknown", target, memory.id.getD fid1,
      memory.content.getD "", r1, n1, "active"⟩, by simp, ?_⟩
    simp [hmid]
  refine ⟨fun db2 iid fid m2 r n t2 h => share_disabled_eq db2 iid fid m2 t2 r n h,
    fun db3 t3 h => by simp [Sharing.is_sharing_enabled, h], ?_, ?_, ?_⟩
  · rw [hfirst]
  · rw [hfirst]
    simp [hmid]
  · exact share_duplicate_eq _ iid2 fid2 memory target r2 n2 hen2 hdup


/-- C7 witness: the dedup/disable behaviour at a concrete database. -/
theorem C7_share_dedup_and_disable_witness :
    (∀ (db2 : Sharing.DB) (iid fid : String) (m2 : Sharing.Mem) (r : ℚ) (n : Int)
      (t2 : String), Sharing.is_sharing_enabled db2 t2 = false →
      Sharing.share db2 iid fid m2 t2 r n = (⟨false, none, "sharing_disabled"⟩, db2)) ∧
    (∀ (db3 : Sharing.DB) (t3 : String), db3.config.lookup t3 = none →
      Sharing.is_sharing_enabled db3 t3 = true) ∧
    (Sharing.share ⟨[], []⟩ "i1" "f1" ⟨some "m1", some "proj", some "text"⟩
      "other" (1/2) 10).1 = ⟨true, some "i1", "success"⟩ ∧
    (Sharing.share ⟨[], []⟩ "i1" "f1" ⟨some "m1", some "proj", some "text"⟩
      "other" (1/2) 10).2.insights =
      [] ++ [⟨"i1", (some "proj").getD "unknown", "other", "m1",
        (some "text").getD "", 1/2, 10, "active"⟩] ∧
    (Sharing.share (Sharing.share ⟨[], []⟩ "i1" "f1"
        ⟨some "m1", some "proj", some "text"⟩ "other" (1/2) 10).2
      "i2" "f2" ⟨some "m1", some "proj", some "text"⟩ "other" (2/5) 20) =
      (⟨false, none, "duplicate"⟩,
        (Sharing.share ⟨[], []⟩ "i1" "f1" ⟨some "m1", some "proj", some "text"⟩
          "other" (1/2) 10).2) :=
  C7_share_dedup_and_disable ⟨[], []⟩ ⟨some "m1", some "proj", some "text"⟩
    "other" "m1" "i1" "f1" "i2" "f2" (1/2) (2/5) 10 20 (by decide)
    (by decide) (by simp)

/-- C9: a memory dict without an `id` key gets a freshly generated UUID as
its stored `memory_id`, so (sharing enabled, UUIDs fresh) the
`(memory_id, target_project)` uniqueness constraint cannot fire: every such
share — including repeats of the same memory to the same target — inserts a
new row and returns success, never `duplicate`. -/
theorem C9_idless_share_always_succeeds (db : Sharing.DB) (memory : Sharing.Mem)
    (target iid fid : String) (r : ℚ) (n : Int)
    (hid : memory.id = none)
    (hen : Sharing.is_sharing_enabled db target = true)
    (hfresh : ∀ i ∈ db.insights, i.memory_id ≠ fid ∧ i.id ≠ iid) :
    Sharing.share db iid fid memory target r n =
      (⟨true, some iid, "success"⟩,
        { db with insights := db.insights ++
            [⟨iid, memory.project_id.getD "unknown", target, fid,
              memory.content.getD "", r, n, "active"⟩] }) := by
  have hany : db.insights.any (fun i =>
      (i.memory_id = memory.id.getD fid ∧ i.target_project = target) ∨
        i.id = iid) = false := by
    rw [List.any_eq_false]
    intro i hi
    have h := hfresh i hi
    simp only [hid, Option.getD_none, decide_eq_true_eq]
    push_neg
    exact ⟨fun hx => (h.1 hx).elim, h.2⟩
  have h := share_success_eq db iid fid memory target r n hen hany
  rw [hid] at h
  simpa using h

/-- C9 witness: two repeated shares of the same id-less memory to the same
target both succeed and insert two distinct rows. -/
theorem C9_idless_share_always_succeeds_witness :
    Sharing.share ⟨[], []⟩ "i1" "f1" ⟨none, some "src", some "c"⟩ "tgt" (1/2) 5 =
      (⟨true, some "i1", "success"⟩,
        ⟨[⟨"i1", "src", "tgt", "f1", "c", 1/2, 5, "active"⟩], []⟩) ∧
    Sharing.share ⟨[⟨"i1", "src", "tgt", "f1", "c", 1/2, 5, "active"⟩], []⟩
        "i2" "f2" ⟨none, some "src", some "c"⟩ "tgt" (1/2) 6 =
      (⟨true, some "i2", "success"⟩,
        ⟨[⟨"i1", "src", "tgt", "f1", "c", 1/2, 5, "active"⟩,
          ⟨"i2", "src", "tgt", "f2", "c", 1/2, 6, "active"⟩], []⟩) := by
  constructor
  · have h := C9_idless_share_always_succeeds ⟨[], []⟩ ⟨none, some "src", some "c"⟩
      "tgt" "i1" "f1" (1/2) 5 (by decide) (by decide) (by simp)
    simpa using h
  · have h := C9_idless_share_always_succeeds
      ⟨[⟨"i1", "src", "tgt", "f1", "c", 1/2, 5, "active"⟩], []⟩
      ⟨none, some "src", some "c"⟩ "tgt" "i2" "f2" (1/2) 6 (by decide) (by decide)
      (by simp)
    simpa using h


/-! ## src/src/prospective_triggers.py

A trigger's JSON `condition` payload is a record of the keys the matcher
reads (`condition.get("after_date")`, `condition.get("project", "")`,
`condition.get("keywords", [])`); absent keys are `none`/`[]`.  The date
comparison `current_date >= after_date` is Python string comparison, i.e.
code-point lexicographic order (`PyStr.pyGe`).
-/

namespace Triggers

/-- The tagged condition payload of a trigger. -/
structure Condition where
  after_date : Option String
  project : Option String
  keywords : List String
deriving DecidableEq, Repr

/-- A row of the `prospective_triggers` table. -/
structure Trigger where
  trigger_id : Nat
  memory_id : String
  trigger_type : String
  condition : Condition
  status : String
deriving DecidableEq, Repr

/-- The session context passed to `check_triggers`. -/
structure Context where
  project : Option String
  keywords : List String
  current_date : Option String
deriving DecidableEq, Repr

/-- Python truthiness of an optional string (`None` and `""` are falsy). -/
def truthy (o : Option String) : Bool :=
  match o with
  | none => false
  | some s => s ≠ ""

/-- `_keywords_overlap(condition, context)`: lowercase both keyword sets;
empty sets never overlap; otherwise require a shared keyword. -/
def keywords_overlap (cond_kws ctx_kws : List String) : Bool :=
  let c := cond_kws.map PyStr.pyLower
  let k := ctx_kws.map PyStr.pyLower
  if c.isEmpty || k.isEmpty then false
  else c.any (fun w => k.contains w)

/-- `_trigger_matches(trigger, context)`. -/
def trigger_matches (t : Trigger) (ctx : Context) : Bool :=
  if t.trigger_type = "time" then
    let after_date := t.condition.after_date.getD ""
    let current_date := ctx.current_date.getD ""
    if after_date ≠ "" ∧ current_date ≠ "" then PyStr.pyGe current_date after_date
    else false
  else if t.trigger_type = "event" then
    let ctx_project := ctx.project.getD ""
    let cond_project := t.condition.project.getD ""
    if cond_project ≠ "" ∧ ctx_project ≠ "" ∧
        PyStr.pyLower cond_project = PyStr.pyLower ctx_project then true
    else keywords_overlap t.condition.keywords ctx.keywords
  else if t.trigger_type = "topic" then
    keywords_overlap t.condition.keywords ctx.keywords
  else false

/-- `check_triggers(context)`: select the `status = 'pending'` rows, keep
those whose condition matches. -/
def check_triggers (tbl : List Trigger) (ctx : Context) : List Trigger :=
  (tbl.filter (fun t => t.status = "pending")).filter (fun t => trigger_matches t ctx)

/-- The claim's reading of "the condition subsumes the context", spelled
from the spec: time ⇔ the context contains `current_date` and it is ≥ the
trigger's `after_date`; topic ⇔ some condition keyword occurs
case-insensitively among the context keywords; event ⇔ the projects are
equal case-insensitively or the keywords overlap. -/
def claimMatches (t : Trigger) (ctx : Context) : Prop :=
  if t.trigger_type = "time" then
    ∃ d a, ctx.current_date = some d ∧ t.condition.after_date = some a ∧
      PyStr.pyGe d a = true
  else if t.trigger_type = "event" then
    (∃ p q, t.condition.project = some p ∧ ctx.project = some q ∧
      PyStr.pyLower p = PyStr.pyLower q) ∨
      (∃ k ∈ t.condition.keywords,
        (ctx.keywords.map PyStr.pyLower).contains (PyStr.pyLower k) = true)
  else if t.trigger_type = "topic" then
    ∃ k ∈ t.condition.keywords,
      (ctx.keywords.map PyStr.pyLower).contains (PyStr.pyLower k) = true
  else False

/-- Reachable triggers: extraction writes time conditions with a nonempty
`after_date` and event conditions whose project, when present, is nonempty. -/
def WellFormed (t : Trigger) : Prop :=
  (t.trigger_type = "time" → ∃ a, t.condition.after_date = some a ∧ a ≠ "") ∧
  (t.trigger_type = "event" → t.condition.project ≠ some "")

end Triggers


/-- A string equals `""` exactly when its character list is empty. -/
theorem eq_empty_iff_data (s : String) : s = "" ↔ s.data = [] := by
  constructor
  · intro h; subst h; rfl
  · intro h
    cases s with
    | mk l =>
      have hl : l = [] := h
      subst hl
      rfl

/-- A nonempty string is never ≥-dominated by the empty string. -/
theorem pyGe_empty_left (a : String) (h : a ≠ "") : PyStr.pyGe "" a = false := by
  have hd : a.data ≠ [] := fun hl => h ((eq_empty_iff_data a).mpr hl)
  cases hda : a.data with
  | nil => exact absurd hda hd
  | cons c cs =>
    unfold PyStr.pyGe
    rw [hda]
    rfl

/-- Lowercasing preserves emptiness. -/
theorem pyLower_eq_empty_iff (s : String) : PyStr.pyLower s = "" ↔ s = "" := by
  rw [eq_empty_iff_data, eq_empty_iff_data]
  show s.data.map Char.toLower = [] ↔ s.data = []
  simp

/-- `_keywords_overlap` holds exactly when some condition keyword occurs
case-insensitively among the context keywords. -/
theorem keywords_overlap_iff (cond ctx : List String) :
    Triggers.keywords_overlap cond ctx = true ↔
      ∃ k ∈ cond, ((ctx.map PyStr.pyLower).contains (PyStr.pyLower k) = true) := by
  unfold Triggers.keywords_overlap
  by_cases hc : cond = []
  · subst hc; simp
  · by_cases hk : ctx = []
    · subst hk; simp
    · have hc' : (cond.map PyStr.pyLower).isEmpty = false := by
        simp [List.isEmpty_iff, hc]
      have hk' : (ctx.map PyStr.pyLower).isEmpty = false := by
        simp [List.isEmpty_iff, hk]
      simp [hc', hk', List.any_map, List.any_eq_true, Function.comp]

/-- `_trigger_matches` agrees with the claim's subsumption reading on
well-formed triggers. -/
theorem trigger_matches_iff (t : Triggers.Trigger) (ctx : Triggers.Context)
    (hwf : Triggers.WellFormed t) :
    Triggers.trigger_matches t ctx = true ↔ Triggers.claimMatches t ctx := by
  unfold Triggers.trigger_matches Triggers.claimMatches
  by_cases htime : t.trigger_type = "time"
  · obtain ⟨a, ha, hane⟩ := hwf.1 htime
    cases hcd : ctx.current_date with
    | none => simp [htime, ha, hane, hcd]
    | some d =>
      by_cases hd : d = ""
      · subst hd
        simp [htime, ha, hane, hcd, pyGe_empty_left a hane]
      · simp [htime, ha, hane, hcd, hd]
  · by_cases hev : t.trigger_type = "event"
    · have hpne := hwf.2 hev
      cases hcp : t.condition.project with
      | none => simp [htime, hev, hcp, keywords_overlap_iff]
      | some p =>
        have hpne' : p ≠ "" := fun h => hpne (by rw [hcp, h])
        cases hcx : ctx.project with
        | none => simp [htime, hev, hcp, hcx, keywords_overlap_iff]
        | some q =>
          by_cases hq : q = ""
          · subst hq
            have hlp : PyStr.pyLower p ≠ PyStr.pyLower "" := by
              intro h
              exact hpne' ((pyLower_eq_empty_iff p).mp (by simpa using h))
            simp [htime, hev, hcp, hcx, keywords_overlap_iff, hlp]
          · by_cases heq : PyStr.pyLower p = PyStr.pyLower q
            · simp [htime, hev, hcp, hcx, hpne', hq, heq]
            · simp [htime, hev, hcp, hcx, hpne', hq, heq, keywords_overlap_iff]
    · by_cases htop : t.trigger_type = "topic"
      · simp [htime, hev, htop, keywords_overlap_iff]
      · simp [htime, hev, htop]

/-- C8: `check_triggers(context)` returns exactly the stored triggers with
status `pending` whose condition subsumes the context — time: the context
carries a `current_date` that is ≥ the trigger's `after_date`; topic: some
condition keyword occurs case-insensitively among the context keywords;
event: the projects are equal case-insensitively or the keywords overlap. -/
theorem C8_check_triggers_matches_spec (tbl : List Triggers.Trigger)
    (ctx : Triggers.Context) (t : Triggers.Trigger) (hwf : Triggers.WellFormed t) :
    t ∈ Triggers.check_triggers tbl ctx ↔
      t ∈ tbl ∧ t.status = "pending" ∧ Triggers.claimMatches t ctx := by
  unfold Triggers.check_triggers
  rw [List.mem_filter, List.mem_filter]
  rw [trigger_matches_iff t ctx hwf]
  simp only [decide_eq_true_eq]
  tauto

/-- A concrete pending time trigger (after 2026-01-01). -/
def ttime : Triggers.Trigger := ⟨1, "m", "time", ⟨some "2026-01-01", none, []⟩, "pending"⟩

/-- A concrete context dated 2026-01-02. -/
def tctx : Triggers.Context := ⟨none, [], some "2026-01-02"⟩

/-- C8 witness: the concrete time trigger is returned for the later-dated
context. -/
theorem C8_check_triggers_matches_spec_witness :
    ttime ∈ Triggers.check_triggers [ttime] tctx := by
  have hwf : Triggers.WellFormed ttime :=
    ⟨fun _ => ⟨"2026-01-01", rfl, by decide⟩, fun h => by simp [ttime] at h⟩
  have hc : Triggers.claimMatches ttime tctx := by
    unfold Triggers.claimMatches
    simp only [ttime, tctx, if_pos rfl]
    exact ⟨"2026-01-02", "2026-01-01", rfl, rfl, by decide⟩
  exact (C8_check_triggers_matches_spec [ttime] tctx ttime hwf).mpr
    ⟨by simp, rfl, hc⟩
